import Mathlib

/-!
Verification of the tyto ontology-lookup library.

This file shallowly embeds the query-dispatch core of tyto (the
`Ontology._handler` chain in src/tyto/tyto.py), the SPARQL-style
term-lookup algorithm shared by the graph and SPARQL backends
(`SPARQLBuilder.get_uri_by_term` / `get_term_by_uri` in
src/tyto/endpoint/endpoint.py), the constructor validation
(`Ontology.__init__`), the cache re-wrapping logic
(`configure_cache_size`), and the HTTP status handling of the REST
backends, and proves or refutes the specified behavioral properties.
-/

namespace Tyto

/-- Exceptions that can flow through the dispatch chain.  Each
constructor corresponds to a concrete exception raised in the Python
source: `lookupErr` to the `LookupError` built by the facade from the
original query input, `ambiguous` to the ambiguity `Exception` of
`SPARQLBuilder.get_uri_by_term`, `httpError` to `urllib.error.HTTPError`,
`ambiguousSubstance` to the `LookupError` of `PUG_REST.get_uri_by_term`,
`indexErr` to an uncaught `IndexError`, and `backendFailure` /
`loadFailure` to arbitrary failures inside a backend (network or parse
errors), identified by an opaque code. -/
inductive Exc where
  | lookupErr (input : String)
  | ambiguous (term : String) (uris : List String)
  | httpError (status : Nat)
  | ambiguousSubstance
  | indexErr
  | backendFailure (code : Nat)
  | loadFailure (code : Nat)
  deriving DecidableEq, Repr

/-- Result of invoking one operation on one backend, as seen by the
dispatcher: Python `None` (absent), a non-`None` response, or a raised
exception. -/
inductive BackendResult (α : Type) where
  | absent
  | value (v : α)
  | raised (e : Exc)
  deriving DecidableEq, Repr

/-- State of a `GraphEndpoint` (src/tyto/endpoint/endpoint.py).  `triples`
is the number of triples in the underlying `rdflib.Graph`; `fileTriples`
is the number of triples that parsing the backing file adds; `loadExc`
is `some e` when `load()` (i.e. `graph.parse`) raises `e`. -/
structure GraphSt where
  triples : Nat
  fileTriples : Nat
  loadExc : Option Exc
  deriving DecidableEq, Repr

/-- `GraphEndpoint.is_loaded` is `bool(self.graph)`, and an
`rdflib.Graph` is truthy exactly when it holds at least one triple. -/
def GraphSt.is_loaded (g : GraphSt) : Bool := g.triples != 0

/-- `GraphEndpoint.load` parses the backing file into the graph, adding
its triples. -/
def GraphSt.load (g : GraphSt) : GraphSt :=
  { g with triples := g.triples + g.fileTriples }

/-- Observable events of one dispatch: querying the loaded local graph
(step 1), querying the i-th remote endpoint (step 2), invoking
`load()` on the local graph, and querying the local graph after the
lazy load (step 3). -/
inductive Ev where
  | queryGraph
  | queryEndpoint (i : Nat)
  | loadGraph
  | queryGraphAfterLoad
  deriving DecidableEq, Repr

/-- The per-call behavior of the backends for a single dispatched
operation.  The dispatcher never inspects the operation's arguments, so
each backend's behavior on this call is modelled by the result it would
return: `graphQueryPre` if the graph is queried while already loaded,
`graphQueryPost` if it is queried after the lazy load of step 3,
`endpointResults` for the remote endpoints in configured order, and
`exc` the caller-supplied failure exception (`None` for the
relationship queries). -/
structure CallSpec (α : Type) where
  graphQueryPre : BackendResult α
  graphQueryPost : BackendResult α
  endpointResults : List (BackendResult α)
  exc : Option Exc
  deriving DecidableEq, Repr

/-- Outcome of `Ontology._handler`: a non-`None` response returned, the
final `return None`, a backend exception propagating uncaught, or the
caller-supplied exception raised after the chain is exhausted. -/
inductive Outcome (α : Type) where
  | result (v : α)
  | noneReturn
  | raisedBackend (e : Exc)
  | raisedLookup (e : Exc)
  deriving DecidableEq, Repr

/-- Full observable behavior of one `Ontology._handler` call: the
outcome, the graph state after the call, the trace of backend events,
and the exceptions logged (caught) by the dispatcher. -/
structure DispatchOut (α : Type) where
  outcome : Outcome α
  graph : Option GraphSt
  events : List Ev
  logged : List Exc
  deriving DecidableEq, Repr

/-- The endpoint loop of `Ontology._handler` (step 2): query each remote
endpoint in order; return the first non-`None` response; a raised
exception propagates (the `try/except` around this loop is commented
out in the source). -/
def tryEndpoints {α : Type} : List (BackendResult α) → Nat →
    Option (Outcome α) × List Ev
  | [], _ => (none, [])
  | r :: rest, i =>
    match r with
    | .value v => (some (.result v), [.queryEndpoint i])
    | .raised e => (some (.raisedBackend e), [.queryEndpoint i])
    | .absent =>
      let res := tryEndpoints rest (i + 1)
      (res.1, .queryEndpoint i :: res.2)

/-- Tail of `Ontology._handler`: `if exception: raise exception` then
`return None`. -/
def finishDispatch {α : Type} (g : Option GraphSt) (exc : Option Exc)
    (evs : List Ev) (logged : List Exc) : DispatchOut α :=
  match exc with
  | some e => ⟨.raisedLookup e, g, evs, logged⟩
  | none => ⟨.noneReturn, g, evs, logged⟩

/-- Step 3 of `Ontology._handler`: if a local graph exists and is not
yet loaded, call `load()` (uncaught: a parse failure propagates) and
query it inside `try/except`, where an exception is caught and logged;
then fall through to the failure exception. -/
def step3 {α : Type} (g : Option GraphSt) (call : CallSpec α)
    (evs : List Ev) : DispatchOut α :=
  match g with
  | none => finishDispatch none call.exc evs []
  | some gs =>
    if gs.is_loaded then finishDispatch (some gs) call.exc evs []
    else
      match gs.loadExc with
      | some e => ⟨.raisedBackend e, some gs, evs ++ [.loadGraph], []⟩
      | none =>
        let gs2 := gs.load
        let evs2 := evs ++ [.loadGraph, .queryGraphAfterLoad]
        match call.graphQueryPost with
        | .value v => ⟨.result v, some gs2, evs2, []⟩
        | .absent => finishDispatch (some gs2) call.exc evs2 []
        | .raised e => finishDispatch (some gs2) call.exc evs2 [e]

/-- Step 2 of `Ontology._handler`: try the remote endpoints in order,
then fall through to step 3. -/
def step2 {α : Type} (g : Option GraphSt) (call : CallSpec α)
    (evs : List Ev) : DispatchOut α :=
  match tryEndpoints call.endpointResults 0 with
  | (some o, evs2) => ⟨o, g, evs ++ evs2, []⟩
  | (none, evs2) => step3 g call (evs ++ evs2)

/-- `Ontology._handler` (src/tyto/tyto.py lines 49-96).  Step 1: if the
local graph exists and is already loaded, query it; a non-`None`
response is returned immediately and an exception propagates (the
`try/except` here is commented out in the source); on `None` fall
through to the endpoints (step 2) and the lazy local load (step 3). -/
def handler {α : Type} (g : Option GraphSt) (call : CallSpec α) :
    DispatchOut α :=
  match g with
  | some gs =>
    if gs.is_loaded then
      match call.graphQueryPre with
      | .value v => ⟨.result v, some gs, [.queryGraph], []⟩
      | .raised e => ⟨.raisedBackend e, some gs, [.queryGraph], []⟩
      | .absent => step2 (some gs) call [.queryGraph]
    else step2 (some gs) call []
  | none => step2 none call []

/-! ## SPARQL-style term lookup (SPARQLBuilder, src/tyto/endpoint/endpoint.py) -/

/-- One regex character comparison for the pattern built by
`SPARQLBuilder.get_uri_by_term`: the query term is turned into the
anchored pattern `^ term.replace(' ', '[\-\_\s]') $`, so a space in the
term matches a hyphen, an underscore, or any whitespace character in
the label, while every other character of the term matches itself
(case-insensitively when the `"i"` regex flag is set). -/
def charMatches (ci : Bool) (p c : Char) : Bool :=
  if p = ' ' then
    c = '-' || c = '_' || c = ' ' || c = '\t' || c = '\n' || c = '\r'
  else if ci then p.toLower = c.toLower
  else p = c

/-- Anchored match of the whole label against the whole term pattern,
character by character. -/
def strMatches (ci : Bool) : List Char → List Char → Bool
  | [], [] => true
  | p :: ps, c :: cs => charMatches ci p c && strMatches ci ps cs
  | _, _ => false

/-- `REGEX(?term, '^...$', maybe "i")` applied to a label, for a query
term without regex metacharacters. -/
def regexMatch (ci : Bool) (term lbl : String) : Bool :=
  strMatches ci term.data lbl.data

/-- A triple store restricted to what the queries observe: the list of
`(uri, rdfs:label)` pairs, in graph iteration order. -/
abbrev Store := List (String × String)

/-- `SELECT distinct` result assembly: keep the first occurrence of
each value. -/
def dedupFirst : List String → List String → List String
  | [], _ => []
  | x :: xs, seen =>
    if x ∈ seen then dedupFirst xs seen else x :: dedupFirst xs (x :: seen)

/-- The flat response list of the uri-by-term SPARQL query: the distinct
URIs whose label matches the term pattern. -/
def queryUrisByTerm (store : Store) (ci : Bool) (term : String) :
    List String :=
  dedupFirst ((store.filter (fun p => regexMatch ci term p.2)).map Prod.fst) []

/-- Possible results of `SPARQLBuilder.get_uri_by_term`: Python `None`
(absent), a URI, or a raised exception. -/
inductive TermLookup where
  | absent
  | found (uri : String)
  | error (e : Exc)
  deriving DecidableEq, Repr

/-- `SPARQLBuilder.get_uri_by_term` (src/tyto/endpoint/endpoint.py lines
56-105): query case-insensitively; an empty response is `None`; more
than one URI triggers a case-sensitive re-query, whose empty response
is `None`, whose multiple response raises the ambiguity exception, and
whose unique response is returned; otherwise the unique response of the
first query is returned. -/
def SPARQLBuilder.get_uri_by_term (store : Store) (term : String) :
    TermLookup :=
  let response := queryUrisByTerm store true term
  if response.length = 0 then .absent
  else if response.length > 1 then
    let response2 := queryUrisByTerm store false term
    if response2.length = 0 then .absent
    else if response2.length > 1 then .error (.ambiguous term response2)
    else
      match response2 with
      | u :: _ => .found u
      | [] => .absent
  else
    match response with
    | u :: _ => .found u
    | [] => .absent

/-- The flat response list of the term-by-uri SPARQL query: the labels
of the given URI in graph order (the English-language preference of the
optional clauses is not modelled; labels carry no language tags in the
store). -/
def queryLabelsByUri (store : Store) (uri : String) : List String :=
  (store.filter (fun p => p.1 = uri)).map Prod.snd

/-- `SPARQLBuilder.get_term_by_uri` (src/tyto/endpoint/endpoint.py lines
26-54): `None` on an empty response, else the first bound label. -/
def SPARQLBuilder.get_term_by_uri (store : Store) (uri : String) :
    Option String :=
  match queryLabelsByUri store uri with
  | [] => none
  | l :: _ => some l

/-- Whether the first character list is a prefix of the second. -/
def charsHavePrefix : List Char → List Char → Bool
  | [], _ => true
  | _ :: _, [] => false
  | p :: ps, c :: cs => p = c && charsHavePrefix ps cs

/-- Fuel-driven worker for `replaceChars`: one unit of fuel is spent per
examined position, and the fuel starts at the list length, which always
suffices since each step consumes at least one character. -/
def replaceCharsFuel (pat new : List Char) : Nat → List Char → List Char
  | _, [] => []
  | 0, l => l
  | fuel + 1, c :: cs =>
    if charsHavePrefix pat (c :: cs) && !pat.isEmpty then
      new ++ replaceCharsFuel pat new fuel (List.drop (pat.length - 1) cs)
    else c :: replaceCharsFuel pat new fuel cs

/-- Replace every non-overlapping occurrence of `pat` by `new`, left to
right — the semantics of Python's `str.replace` for a non-empty
pattern (the empty pattern never occurs in this code base). -/
def replaceChars (pat new l : List Char) : List Char :=
  replaceCharsFuel pat new l.length l

/-- Python's `str.replace` on strings, via `replaceChars`. -/
def pyReplace (s pat new : String) : String :=
  ⟨replaceChars pat.data new.data s.data⟩

/-- Whether the pattern occurs as a contiguous substring, i.e. Python's
`pattern in target`. -/
def charsHaveSub (pat : List Char) : List Char → Bool
  | [] => pat.isEmpty
  | c :: cs => charsHavePrefix pat (c :: cs) || charsHaveSub pat cs

/-! ## Ontology facade (src/tyto/tyto.py) -/

/-- The sanitization hooks of an `Ontology` instance.  The defaults are
identity except `sanTerm`, which replaces underscores with spaces;
individual ontology modules override them. -/
structure OntologyCfg where
  sanTerm : String → String
  revSanTerm : String → String
  sanUri : String → String
  revSanUri : String → String

/-- `Ontology._sanitize_term` default: replace underscores with
spaces. -/
def sanitizeTermDefault (t : String) : String := pyReplace t "_" " "

/-- Lift a SPARQL lookup result to a dispatcher backend result. -/
def TermLookup.toBackend : TermLookup → BackendResult String
  | .absent => .absent
  | .found u => .value u
  | .error e => .raised e

/-- `Ontology.get_uri_by_term` specialized to the dispatch level
(src/tyto/tyto.py lines 112-124): the term is sanitized before dispatch
and the failure exception is a `LookupError` built from the original,
unsanitized term.  The per-backend results for this call are abstract
data, as in `handler`. -/
def Ontology.uri_for_term_dispatch (g : Option GraphSt)
    (pre post : BackendResult String) (eps : List (BackendResult String))
    (term : String) : DispatchOut String :=
  handler g
    { graphQueryPre := pre, graphQueryPost := post,
      endpointResults := eps,
      exc := some (.lookupErr (term ++ " is not a valid ontology term")) }

/-- Graph state of an ontology whose backing file holds exactly the
triples of `store` and has already been parsed when non-empty (an empty
file leaves the graph falsy, hence "unloaded"). -/
def localGraphState (store : Store) : GraphSt :=
  { triples := store.length, fileTriples := 0, loadExc := none }

/-- `Ontology.get_uri_by_term` of a locally-backed ontology with no
remote endpoints: sanitize the term, dispatch the shared SPARQL lookup
against the local store, and reverse-sanitize a found URI
(src/tyto/tyto.py lines 112-124 composed with the graph backend). -/
def Ontology.get_uri_by_term_local (cfg : OntologyCfg) (store : Store)
    (term : String) : Outcome String :=
  let res := (SPARQLBuilder.get_uri_by_term store (cfg.sanTerm term)).toBackend
  let out := handler (some (localGraphState store))
    { graphQueryPre := res, graphQueryPost := res,
      endpointResults := [],
      exc := some (.lookupErr (term ++ " is not a valid ontology term")) }
  match out.outcome with
  | .result u => .result (cfg.revSanUri u)
  | o => o

/-- `Ontology.get_term_by_uri` of a locally-backed ontology with no
remote endpoints (src/tyto/tyto.py lines 98-110 composed with the graph
backend): sanitize the URI, dispatch the shared SPARQL label lookup,
and reverse-sanitize a found label. -/
def Ontology.get_term_by_uri_local (cfg : OntologyCfg) (store : Store)
    (uri : String) : Outcome String :=
  let sanUri := cfg.sanUri uri
  let res : BackendResult String :=
    match SPARQLBuilder.get_term_by_uri store sanUri with
    | none => .absent
    | some l => .value l
  let out := handler (some (localGraphState store))
    { graphQueryPre := res, graphQueryPost := res,
      endpointResults := [],
      exc := some (.lookupErr ("No matching term found for " ++ uri)) }
  match out.outcome with
  | .result l => .result (cfg.revSanTerm l)
  | o => o

/-- `multi_replace` (src/tyto/tyto.py lines 286-290): for the first old
namespace occurring in the target, replace every occurrence of it with
the new namespace; if none occurs, return the target unchanged. -/
def multi_replace (target : String) (olds : List String) (new : String) :
    String :=
  match olds with
  | [] => target
  | ns :: rest =>
    if charsHaveSub ns.data target.data then pyReplace target ns new
    else multi_replace target rest new

/-- `SO._sanitize_uri` (src/tyto/so.py): translate identifiers.org URIs
(current and deprecated form) into the purl namespace. -/
def SO.sanUri (uri : String) : String :=
  multi_replace uri
    ["https://identifiers.org/SO:", "http://identifiers.org/so/SO:"]
    "http://purl.obolibrary.org/obo/SO_"

/-- `SO._reverse_sanitize_uri` (src/tyto/so.py): translate purl URIs
back into the identifiers.org namespace. -/
def SO.revSanUri (uri : String) : String :=
  pyReplace uri "http://purl.obolibrary.org/obo/SO_"
    "https://identifiers.org/SO:"

/-- The sanitization hooks of the `SO` ontology instance
(src/tyto/so.py): `_sanitize_term` is overridden to the identity, URI
sanitization translates between purl and identifiers.org, and the term
reverse-sanitizer keeps its identity default. -/
def SO.cfg : OntologyCfg :=
  { sanTerm := id, revSanTerm := id,
    sanUri := SO.sanUri, revSanUri := SO.revSanUri }

/-- Modelled from the spec: the sequence-ontology data file
(tyto/ontologies/so.owl, referenced by src/tyto/so.py) is not under
src.  Per the spec's concrete scenario it contains the term
SO_0000110 with rdfs:label "sequence_feature"; a second unrelated
entry is included so that the store behaves like a larger graph. -/
def SO.storeSample : Store :=
  [("http://purl.obolibrary.org/obo/SO_0000110", "sequence_feature"),
   ("http://purl.obolibrary.org/obo/SO_0000167", "promoter")]

/-! ## Constructor validation (Ontology.__init__, src/tyto/tyto.py) -/

/-- The `path` argument of `Ontology.__init__` as a Python value:
`None`, a string, or some other (truthy) object. -/
inductive PathArg where
  | nonePath
  | strPath (s : String)
  | nonStr
  deriving DecidableEq, Repr

/-- Python truthiness of the `path` argument (an empty string is
falsy). -/
def PathArg.truthy : PathArg → Bool
  | .nonePath => false
  | .strPath s => s ≠ ""
  | .nonStr => true

/-- An element of a Python `endpoints` list: either an object whose
type subclasses `QueryBackend`, or anything else. -/
inductive EndpointElem where
  | backendE
  | nonBackendE
  deriving DecidableEq, Repr

/-- The `endpoints` argument of `Ontology.__init__` as a Python value:
`None`, a list, or some other (truthy) object. -/
inductive EndpointsArg where
  | noneEps
  | listEps (l : List EndpointElem)
  | nonList
  deriving DecidableEq, Repr

/-- Python truthiness of the `endpoints` argument (an empty list is
falsy). -/
def EndpointsArg.truthy : EndpointsArg → Bool
  | .noneEps => false
  | .listEps l => l ≠ []
  | .nonList => true

/-- The Python type of an exception raised by `Ontology.__init__`: the
generic `Exception` base type, or `TypeError`. -/
inductive InitErrorKind where
  | genericException
  | typeError
  deriving DecidableEq, Repr

/-- The fields a successful `Ontology.__init__` sets. -/
structure OntologyFields where
  graphPath : Option String
  endpoints : Option (List EndpointElem)
  deriving DecidableEq, Repr

/-- `Ontology.__init__` (src/tyto/tyto.py lines 26-39): if both `path`
and `endpoints` are falsy, raise a plain `Exception`; a truthy
`endpoints` that is not a list of `QueryBackend`s raises `TypeError`; a
truthy `path` that is not a string raises `TypeError`; otherwise the
fields are set. -/
def Ontology.init (path : PathArg) (endpoints : EndpointsArg) :
    Except (InitErrorKind × String) OntologyFields :=
  if ¬ path.truthy ∧ ¬ endpoints.truthy then
    .error (.genericException,
      "A sparql endpoint or a local path to an ontology must be specified")
  else
    let epsStep : Except (InitErrorKind × String) (Option (List EndpointElem)) :=
      if endpoints.truthy then
        match endpoints with
        | .listEps l =>
          if l.all (fun e => e = .backendE) then .ok (some l)
          else .error (.typeError, "The endpoints argument requires a list of Endpoints")
        | _ => .error (.typeError, "The endpoints argument requires a list of Endpoints")
      else .ok none
    match epsStep with
    | .error e => .error e
    | .ok eps =>
      if path.truthy then
        match path with
        | .strPath s => .ok { graphPath := some s, endpoints := eps }
        | _ => .error (.typeError, "Invalid path specified")
      else .ok { graphPath := none, endpoints := eps }

/-! ## Memoization layer (configure_cache_size, src/tyto/tyto.py) -/

/-- State of one of the two hot lookup methods: the original
un-memoized function, or an `lru_cache(maxsize)` wrapper holding a list
of cached keys around an inner function (the wrapper exposes the inner
function as `__wrapped__`). -/
inductive FnState where
  | original
  | wrapped (maxsize : Nat) (entries : List String) (inner : FnState)
  deriving DecidableEq, Repr

/-- Whether `__wrapped__` is present in the function's `__dict__`,
i.e. whether the function is an `lru_cache` wrapper. -/
def FnState.hasWrapped : FnState → Bool
  | .original => false
  | .wrapped _ _ _ => true

/-- The function's `__wrapped__` attribute (the immediately wrapped
inner function). -/
def FnState.unwrapOnce : FnState → FnState
  | .original => .original
  | .wrapped _ _ inner => inner

/-- The pair of class methods that `configure_cache_size` rebinds. -/
structure CachePair where
  termByUri : FnState
  uriByTerm : FnState
  deriving DecidableEq, Repr

/-- The default `maxsize` argument of `configure_cache_size`. -/
def defaultCacheSize : Nat := 1000

/-- `configure_cache_size` (src/tyto/tyto.py lines 293-306): if
`get_term_by_uri` has no `__wrapped__` yet, wrap both methods as they
are in a fresh `lru_cache(maxsize)`; otherwise wrap each method's
`__wrapped__` in a fresh `lru_cache(maxsize)`. -/
def configure_cache_size (st : CachePair) (maxsize : Nat) : CachePair :=
  if ¬ st.termByUri.hasWrapped then
    { termByUri := .wrapped maxsize [] st.termByUri,
      uriByTerm := .wrapped maxsize [] st.uriByTerm }
  else
    { termByUri := .wrapped maxsize [] st.termByUri.unwrapOnce,
      uriByTerm := .wrapped maxsize [] st.uriByTerm.unwrapOnce }

/-- The cache state after module import: both methods start un-memoized
and `configure_cache_size()` is invoked once with the default size
(src/tyto/tyto.py line 309). -/
def cacheInitState : CachePair :=
  configure_cache_size { termByUri := .original, uriByTerm := .original }
    defaultCacheSize

/-- The last element of a list, or the default when the list is
empty. -/
def lastD : List Nat → Nat → Nat
  | [], d => d
  | s :: rest, _ => lastD rest s

/-! ## REST backends (src/tyto/endpoint/endpoint.py) -/

/-- An HTTP response as the REST code observes it: the status code and
the relevant part of the parsed JSON payload. -/
structure HttpResp (π : Type) where
  status : Nat
  payload : π
  deriving DecidableEq, Repr

/-- Result of one REST backend operation: Python `None` (absent), a
value, or a raised exception. -/
inductive RestOut (α : Type) where
  | absent
  | ok (v : α)
  | raised (e : Exc)
  deriving DecidableEq, Repr

/-- `EBIOntologyLookupServiceAPI.get_term_by_uri`
(src/tyto/endpoint/endpoint.py lines 363-375): status 200 returns the
parsed label, status 404 returns `None`, any other status raises
`HTTPError`.  The payload is the `label` field of the JSON body. -/
def EBI.get_term_by_uri (resp : HttpResp String) : RestOut String :=
  if resp.status = 200 then .ok resp.payload
  else if resp.status = 404 then .absent
  else .raised (.httpError resp.status)

/-- `EBIOntologyLookupServiceAPI.get_uri_by_term`
(src/tyto/endpoint/endpoint.py lines 377-394): status 200 returns
`None` for an empty `docs` array and the `iri` of the first doc
otherwise; every other status — including 404 — raises `HTTPError`.
The payload is the list of `iri` fields of the `docs` array. -/
def EBI.get_uri_by_term (resp : HttpResp (List String)) : RestOut String :=
  if resp.status = 200 then
    match resp.payload with
    | [] => .absent
    | iri :: _ => .ok iri
  else .raised (.httpError resp.status)

/-- `PUG_REST.get_term_by_uri` (src/tyto/endpoint/endpoint.py lines
480-490): status 200 returns the first synonym, status 404 returns
`None`, any other status raises `HTTPError`.  The payload is the first
synonym of the first information record. -/
def PUG_REST.get_term_by_uri (resp : HttpResp String) : RestOut String :=
  if resp.status = 200 then .ok resp.payload
  else if resp.status = 404 then .absent
  else .raised (.httpError resp.status)

/-- `PUG_REST.get_uri_by_term` (src/tyto/endpoint/endpoint.py lines
492-503): status 200 returns `None` for a falsy JSON body, raises the
ambiguity `LookupError` when more than one substance id matches, and
otherwise builds the identifiers.org URI from the single id (an empty
id list would hit an uncaught `IndexError`); every other status —
including 404 — raises `HTTPError`.  The payload is the `SID` list, or
`none` for a falsy body. -/
def PUG_REST.get_uri_by_term (resp : HttpResp (Option (List Nat))) :
    RestOut String :=
  if resp.status = 200 then
    match resp.payload with
    | none => .absent
    | some sids =>
      if sids.length > 1 then .raised .ambiguousSubstance
      else
        match sids with
        | [] => .raised .indexErr
        | s :: _ =>
          .ok ("https://identifiers.org/pubchem.substance:" ++ toString s)
  else .raised (.httpError resp.status)

/-! ## URI relationship methods (src/tyto/tyto.py lines 171-265) -/

/-- Common shape of the `URI` relationship methods: each invokes
`self.ontology._handler(method_name, None, ...)`, i.e. dispatches with
no failure exception. -/
def relationDispatch {α : Type} (g : Option GraphSt) (c : CallSpec α) :
    DispatchOut α :=
  handler g { c with exc := none }

/-- `URI.is_child_of`: dispatch `is_child_of` with no failure
exception. -/
def URI.is_child_of (g : Option GraphSt) (c : CallSpec Bool) :
    DispatchOut Bool :=
  relationDispatch g c

/-- `URI.is_parent_of`: dispatch with no failure exception. -/
def URI.is_parent_of (g : Option GraphSt) (c : CallSpec Bool) :
    DispatchOut Bool :=
  relationDispatch g c

/-- `URI.is_ancestor_of`: dispatch with no failure exception. -/
def URI.is_ancestor_of (g : Option GraphSt) (c : CallSpec Bool) :
    DispatchOut Bool :=
  relationDispatch g c

/-- `URI.is_descendant_of`: dispatch with no failure exception. -/
def URI.is_descendant_of (g : Option GraphSt) (c : CallSpec Bool) :
    DispatchOut Bool :=
  relationDispatch g c

/-- `URI.is_instance`: dispatch with no failure exception. -/
def URI.is_instance (g : Option GraphSt) (c : CallSpec Bool) :
    DispatchOut Bool :=
  relationDispatch g c

/-- `URI.get_instances`: dispatch with no failure exception. -/
def URI.get_instances (g : Option GraphSt) (c : CallSpec (List String)) :
    DispatchOut (List String) :=
  relationDispatch g c

/-- `URI.get_parents`: dispatch with no failure exception. -/
def URI.get_parents (g : Option GraphSt) (c : CallSpec (List String)) :
    DispatchOut (List String) :=
  relationDispatch g c

/-- `URI.get_children`: dispatch with no failure exception. -/
def URI.get_children (g : Option GraphSt) (c : CallSpec (List String)) :
    DispatchOut (List String) :=
  relationDispatch g c

/-- `URI.get_ancestors`: dispatch with no failure exception. -/
def URI.get_ancestors (g : Option GraphSt) (c : CallSpec (List String)) :
    DispatchOut (List String) :=
  relationDispatch g c

/-- `URI.get_descendants`: dispatch with no failure exception. -/
def URI.get_descendants (g : Option GraphSt) (c : CallSpec (List String)) :
    DispatchOut (List String) :=
  relationDispatch g c

/-! ## Sequences of dispatch calls -/

/-- Run a sequence of dispatched operations, threading the local graph
state from call to call and concatenating the event traces. -/
def dispatchSeq {α : Type} (g : Option GraphSt) :
    List (CallSpec α) → Option GraphSt × List Ev
  | [] => (g, [])
  | c :: cs =>
    let out := handler g c
    let rest := dispatchSeq out.graph cs
    (rest.1, out.events ++ rest.2)

/-! ## Spec-side definitions (for refinement comparison only) -/

/-- Canonicalization of one character under the spec's reading of the
matching rule, in which underscore, hyphen and space are mutually
interchangeable and matching is case-insensitive.  This definition
follows the spec's words, not the source, and exists only to be
compared against `regexMatch`. -/
def specEquivChar (c : Char) : Char :=
  if c = '-' ∨ c = '_' then ' ' else c.toLower

/-- The spec's reading of the case-insensitive matching rule: two
strings match when they agree after canonicalizing underscore, hyphen
and space to one character and lowering case.  Follows the spec's
words, for comparison with the source-derived `regexMatch`. -/
def specEquivMatch (a b : String) : Bool :=
  a.data.map specEquivChar = b.data.map specEquivChar

/-! ## Helper lemmas -/

theorem mem_dedupFirst (x : String) :
    ∀ (l seen : List String), x ∈ dedupFirst l seen ↔ x ∈ l ∧ x ∉ seen := by
  intro l
  induction l with
  | nil => intro seen; simp [dedupFirst]
  | cons y ys ih =>
    intro seen
    simp only [dedupFirst]
    by_cases hy : y ∈ seen
    · rw [if_pos hy, ih]
      simp only [List.mem_cons]
      constructor
      · rintro ⟨hx, hns⟩
        exact ⟨Or.inr hx, hns⟩
      · rintro ⟨hx | hx, hns⟩
        · exact absurd (hx ▸ hy) hns
        · exact ⟨hx, hns⟩
    · rw [if_neg hy]
      simp only [List.mem_cons, ih]
      constructor
      · rintro (rfl | ⟨hx, hns⟩)
        · exact ⟨Or.inl rfl, hy⟩
        · exact ⟨Or.inr hx, fun hc => hns (Or.inr hc)⟩
      · rintro ⟨hx | hx, hns⟩
        · exact Or.inl hx
        · by_cases hxy : x = y
          · exact Or.inl hxy
          · exact Or.inr ⟨hx, fun hc => hc.elim hxy hns⟩

theorem mem_queryUrisByTerm (store : Store) (ci : Bool) (term u : String) :
    u ∈ queryUrisByTerm store ci term ↔
      ∃ p ∈ store, p.1 = u ∧ regexMatch ci term p.2 = true := by
  unfold queryUrisByTerm
  rw [mem_dedupFirst]
  simp only [List.mem_map, List.mem_filter, List.not_mem_nil,
    not_false_iff, and_true]
  constructor
  · rintro ⟨p, ⟨hps, hm⟩, hpu⟩
    exact ⟨p, hps, hpu, hm⟩
  · rintro ⟨p, hps, hpu, hm⟩
    exact ⟨p, ⟨hps, hm⟩, hpu⟩

theorem charMatches_mono (p c : Char) (h : charMatches false p c = true) :
    charMatches true p c = true := by
  unfold charMatches at h ⊢
  by_cases hp : p = ' '
  · rwa [if_pos hp] at h ⊢
  · rw [if_neg hp] at h ⊢
    rw [if_pos rfl]
    rw [if_neg (by decide)] at h
    rw [decide_eq_true_eq] at h ⊢
    rw [h]

theorem strMatches_mono :
    ∀ (ps cs : List Char), strMatches false ps cs = true →
      strMatches true ps cs = true
  | [], [] => fun _ => rfl
  | p :: ps, c :: cs => by
    intro h
    unfold strMatches at h ⊢
    rw [Bool.and_eq_true] at h ⊢
    exact ⟨charMatches_mono p c h.1, strMatches_mono ps cs h.2⟩
  | [], _ :: _ => by intro h; simp [strMatches] at h
  | _ :: _, [] => by intro h; simp [strMatches] at h

theorem regexMatch_mono (term lbl : String)
    (h : regexMatch false term lbl = true) : regexMatch true term lbl = true :=
  strMatches_mono term.data lbl.data h

theorem tryEndpoints_absent {α : Type} (rs : List (BackendResult α)) :
    ∀ (i : Nat), (∀ r ∈ rs, r = .absent) → (tryEndpoints rs i).1 = none := by
  induction rs with
  | nil => intro i _; rfl
  | cons r rest ih =>
    intro i h
    have hr := h r (by simp)
    subst hr
    simp only [tryEndpoints]
    exact ih (i + 1) (fun x hx => h x (by simp [hx]))

theorem tryEndpoints_events {α : Type} (rs : List (BackendResult α)) :
    ∀ (i : Nat) (e : Ev), e ∈ (tryEndpoints rs i).2 →
      ∃ j, e = .queryEndpoint j := by
  induction rs with
  | nil => intro i e h; simp [tryEndpoints] at h
  | cons r rest ih =>
    intro i e h
    cases r with
    | value v =>
      simp only [tryEndpoints, List.mem_singleton] at h
      exact ⟨i, h⟩
    | raised ex =>
      simp only [tryEndpoints, List.mem_singleton] at h
      exact ⟨i, h⟩
    | absent =>
      simp only [tryEndpoints, List.mem_cons] at h
      rcases h with rfl | h
      · exact ⟨i, rfl⟩
      · exact ih (i + 1) e h

theorem tryEndpoints_found {α : Type} (v : α) (rest : List (BackendResult α)) :
    ∀ (pre : List (BackendResult α)) (i : Nat), (∀ r ∈ pre, r = .absent) →
      (tryEndpoints (pre ++ .value v :: rest) i).1 = some (.result v) := by
  intro pre
  induction pre with
  | nil => intro i _; rfl
  | cons r pre2 ih =>
    intro i h
    have hr := h r (by simp)
    subst hr
    simp only [List.cons_append, tryEndpoints]
    exact ih (i + 1) (fun x hx => h x (by simp [hx]))

theorem tryEndpoints_raised {α : Type} (ex : Exc) (rest : List (BackendResult α)) :
    ∀ (pre : List (BackendResult α)) (i : Nat), (∀ r ∈ pre, r = .absent) →
      (tryEndpoints (pre ++ .raised ex :: rest) i).1 =
        some (.raisedBackend ex) := by
  intro pre
  induction pre with
  | nil => intro i _; rfl
  | cons r pre2 ih =>
    intro i h
    have hr := h r (by simp)
    subst hr
    simp only [List.cons_append, tryEndpoints]
    exact ih (i + 1) (fun x hx => h x (by simp [hx]))

theorem finishDispatch_outcome {α : Type} (g : Option GraphSt)
    (exc : Option Exc) (evs : List Ev) (logged : List Exc) :
    (finishDispatch (α := α) g exc evs logged).outcome =
      match exc with
      | some e => Outcome.raisedLookup e
      | none => Outcome.noneReturn := by
  cases exc <;> rfl

theorem handler_all_absent {α : Type} (g : Option GraphSt) (c : CallSpec α)
    (hpre : c.graphQueryPre = .absent) (hpost : c.graphQueryPost = .absent)
    (heps : ∀ r ∈ c.endpointResults, r = .absent)
    (hload : ∀ gs, g = some gs → gs.loadExc = none) :
    (handler g c).outcome =
      match c.exc with
      | some e => Outcome.raisedLookup e
      | none => Outcome.noneReturn := by
  have htry := tryEndpoints_absent c.endpointResults 0 heps
  rcases hEq : tryEndpoints c.endpointResults 0 with ⟨fst, snd⟩
  rw [hEq] at htry
  dsimp at htry
  subst htry
  cases g with
  | none =>
    simp only [handler, step2, hEq, step3]
    exact finishDispatch_outcome none c.exc snd []
  | some gs =>
    by_cases hl : gs.is_loaded
    · simp only [handler, if_pos hl, hpre, step2, hEq, step3, if_pos hl]
      exact finishDispatch_outcome (some gs) c.exc ([.queryGraph] ++ snd) []
    · simp only [handler, if_neg hl, step2, hEq, step3, if_neg hl,
        hload gs rfl, hpost]
      exact finishDispatch_outcome (some gs.load) c.exc
        ([] ++ snd ++ [.loadGraph, .queryGraphAfterLoad]) []

theorem handler_loaded_fixed {α : Type} (gs : GraphSt) (c : CallSpec α)
    (h : gs.is_loaded = true) :
    (handler (some gs) c).graph = some gs ∧
      Ev.loadGraph ∉ (handler (some gs) c).events := by
  cases hpre : c.graphQueryPre with
  | value v => simp [handler, h, hpre]
  | raised e => simp [handler, h, hpre]
  | absent =>
    rcases hEq : tryEndpoints c.endpointResults 0 with ⟨fst, snd⟩
    have hevs : ∀ e ∈ snd, ∃ j, e = Ev.queryEndpoint j := by
      intro e he
      exact tryEndpoints_events c.endpointResults 0 e (by rw [hEq]; exact he)
    have hsnd : Ev.loadGraph ∉ snd := by
      intro hmem
      rcases hevs _ hmem with ⟨j, hj⟩
      cases hj
    cases fst with
    | some o =>
      simp only [handler, if_pos h, hpre, step2, hEq]
      refine ⟨by trivial, ?_⟩
      intro hmem
      simp only [List.mem_append, List.mem_singleton] at hmem
      rcases hmem with h1 | h1
      · cases h1
      · exact hsnd h1
    | none =>
      simp only [handler, if_pos h, hpre, step2, hEq, step3, if_pos h]
      cases hexc : c.exc with
      | some e =>
        simp only [finishDispatch]
        refine ⟨by trivial, ?_⟩
        intro hmem
        simp only [List.mem_append, List.mem_singleton] at hmem
        rcases hmem with h1 | h1
        · cases h1
        · exact hsnd h1
      | none =>
        simp only [finishDispatch]
        refine ⟨by trivial, ?_⟩
        intro hmem
        simp only [List.mem_append, List.mem_singleton] at hmem
        rcases hmem with h1 | h1
        · cases h1
        · exact hsnd h1

/-! ## Claim theorems -/

/-- Claim C1: the dispatcher tries backends in a fixed priority order.
(1) With a loaded local graph whose query yields a non-absent result,
that result is returned immediately and the only backend event is the
graph query — no remote endpoint is invoked and no load happens.
(2) Otherwise (no graph, graph not loaded, or loaded graph answering
absent), the remote endpoints are queried in configured order and the
first non-absent result is returned, without loading the graph.
(3) Otherwise, with an unloaded graph present and all endpoints absent,
the graph is loaded and queried, and its non-absent result is
returned. -/
theorem C1_dispatch_priority (α : Type) :
    (∀ (gs : GraphSt) (c : CallSpec α) (v : α),
        gs.is_loaded = true → c.graphQueryPre = .value v →
        handler (some gs) c = ⟨.result v, some gs, [.queryGraph], []⟩) ∧
    (∀ (g : Option GraphSt) (c : CallSpec α)
        (pre rest : List (BackendResult α)) (v : α),
        (g = none ∨ ∃ gs, g = some gs ∧
            (gs.is_loaded = false ∨ c.graphQueryPre = .absent)) →
        c.endpointResults = pre ++ .value v :: rest →
        (∀ r ∈ pre, r = .absent) →
        (handler g c).outcome = .result v ∧
          Ev.loadGraph ∉ (handler g c).events) ∧
    (∀ (gs : GraphSt) (c : CallSpec α) (v : α),
        gs.is_loaded = false → (∀ r ∈ c.endpointResults, r = .absent) →
        gs.loadExc = none → c.graphQueryPost = .value v →
        (handler (some gs) c).outcome = .result v ∧
          Ev.loadGraph ∈ (handler (some gs) c).events) := by
  refine ⟨?_, ?_, ?_⟩
  · intro gs c v hl hpre
    simp [handler, hl, hpre]
  · intro g c pre rest v hg heq hpre
    have hfound := tryEndpoints_found v rest pre 0 hpre
    rw [← heq] at hfound
    rcases hEq : tryEndpoints c.endpointResults 0 with ⟨fst, snd⟩
    rw [hEq] at hfound
    dsimp at hfound
    subst hfound
    have hsnd : Ev.loadGraph ∉ snd := by
      intro hmem
      rcases tryEndpoints_events c.endpointResults 0 _
        (by rw [hEq]; exact hmem) with ⟨j, hj⟩
      cases hj
    rcases hg with rfl | ⟨gs, rfl, hcase⟩
    · simp only [handler, step2, hEq]
      refine ⟨by trivial, ?_⟩
      intro hmem
      rw [List.nil_append] at hmem
      exact hsnd hmem
    · rcases hcase with hnl | hpre2
      · simp only [handler, hnl, Bool.false_eq_true, if_false, step2, hEq]
        refine ⟨by trivial, ?_⟩
        intro hmem
        rw [List.nil_append] at hmem
        exact hsnd hmem
      · by_cases hl : gs.is_loaded
        · simp only [handler, hl, if_true, hpre2, step2, hEq]
          refine ⟨by trivial, ?_⟩
          intro hmem
          rcases List.mem_append.1 hmem with hm | hm
          · simp at hm
          · exact hsnd hm
        · simp only [handler, hl, if_false, step2, hEq]
          refine ⟨by trivial, ?_⟩
          intro hmem
          rw [List.nil_append] at hmem
          exact hsnd hmem
  · intro gs c v hnl heps hle hpost
    have htry := tryEndpoints_absent c.endpointResults 0 heps
    rcases hEq : tryEndpoints c.endpointResults 0 with ⟨fst, snd⟩
    rw [hEq] at htry
    dsimp at htry
    subst htry
    simp only [handler, hnl, Bool.false_eq_true, if_false, step2, hEq,
      step3, hle, hpost]
    exact ⟨by trivial, by simp⟩

/-- Witness for C1: each of the three priority cases at concrete
inputs. -/
theorem C1_dispatch_priority_witness :
    (handler (some ⟨2, 0, none⟩)
        (⟨.value 7, .absent, [.value 5], none⟩ : CallSpec Nat) =
      ⟨.result 7, some ⟨2, 0, none⟩, [.queryGraph], []⟩) ∧
    ((handler none
        (⟨.absent, .absent, [.absent, .value 5], none⟩ : CallSpec Nat)).outcome =
        .result 5 ∧
      Ev.loadGraph ∉ (handler none
        (⟨.absent, .absent, [.absent, .value 5], none⟩ : CallSpec Nat)).events) ∧
    ((handler (some ⟨0, 4, none⟩)
        (⟨.absent, .value 9, [.absent], none⟩ : CallSpec Nat)).outcome =
        .result 9 ∧
      Ev.loadGraph ∈ (handler (some ⟨0, 4, none⟩)
        (⟨.absent, .value 9, [.absent], none⟩ : CallSpec Nat)).events) := by
  refine ⟨?_, ?_, ?_⟩
  · exact (C1_dispatch_priority Nat).1 ⟨2, 0, none⟩ _ 7 rfl rfl
  · exact (C1_dispatch_priority Nat).2.1 none _ [.absent] [] 5
      (Or.inl rfl) rfl (by decide)
  · exact (C1_dispatch_priority Nat).2.2 ⟨0, 4, none⟩ _ 9 rfl (by decide)
      rfl rfl

/-- Claim C2 counterexample: an exception raised by a backend during
dispatch is NOT caught: a remote endpoint raising aborts the chain
(outcome is the propagated exception, nothing is logged, and the next
endpoint holding a result is never consulted), and likewise for the
already-loaded local graph. -/
theorem C2_backend_exception_counterexample :
    (handler none
        (⟨.absent, .absent, [.raised (.backendFailure 7), .value 5], none⟩ :
          CallSpec Nat) =
      ⟨.raisedBackend (.backendFailure 7), none, [.queryEndpoint 0], []⟩) ∧
    (handler (some ⟨1, 0, none⟩)
        (⟨.raised (.backendFailure 3), .absent, [.value 5], none⟩ :
          CallSpec Nat) =
      ⟨.raisedBackend (.backendFailure 3), some ⟨1, 0, none⟩,
        [.queryGraph], []⟩) := by
  constructor <;> rfl

/-- Claim C2, amended: exceptions raised while querying the
already-loaded local graph (step 1) or a remote endpoint (step 2)
propagate to the caller uncaught and unlogged, aborting the dispatch
chain; only an exception raised while querying the local graph after
the lazy load of step 3 is caught, logged, and treated as absent, after
which the dispatch falls through to the caller-supplied failure
exception. -/
theorem C2_exception_propagation (α : Type) :
    (∀ (gs : GraphSt) (c : CallSpec α) (e : Exc),
        gs.is_loaded = true → c.graphQueryPre = .raised e →
        handler (some gs) c =
          ⟨.raisedBackend e, some gs, [.queryGraph], []⟩) ∧
    (∀ (g : Option GraphSt) (c : CallSpec α)
        (pre rest : List (BackendResult α)) (e : Exc),
        (g = none ∨ ∃ gs, g = some gs ∧
            (gs.is_loaded = false ∨ c.graphQueryPre = .absent)) →
        c.endpointResults = pre ++ .raised e :: rest →
        (∀ r ∈ pre, r = .absent) →
        (handler g c).outcome = .raisedBackend e ∧
          (handler g c).logged = []) ∧
    (∀ (gs : GraphSt) (c : CallSpec α) (e : Exc),
        gs.is_loaded = false → (∀ r ∈ c.endpointResults, r = .absent) →
        gs.loadExc = none → c.graphQueryPost = .raised e →
        (handler (some gs) c).logged = [e] ∧
        (handler (some gs) c).outcome =
          match c.exc with
          | some ex => Outcome.raisedLookup ex
          | none => Outcome.noneReturn) := by
  refine ⟨?_, ?_, ?_⟩
  · intro gs c e hl hpre
    simp [handler, hl, hpre]
  · intro g c pre rest e hg heq hpre
    have hfound := tryEndpoints_raised e rest pre 0 hpre
    rw [← heq] at hfound
    rcases hEq : tryEndpoints c.endpointResults 0 with ⟨fst, snd⟩
    rw [hEq] at hfound
    dsimp at hfound
    subst hfound
    rcases hg with rfl | ⟨gs, rfl, hcase⟩
    · simp only [handler, step2, hEq]
      exact ⟨by trivial, by trivial⟩
    · rcases hcase with hnl | hpre2
      · simp only [handler, hnl, Bool.false_eq_true, if_false, step2, hEq]
        exact ⟨by trivial, by trivial⟩
      · by_cases hl : gs.is_loaded
        · simp only [handler, hl, if_true, hpre2, step2, hEq]
          exact ⟨by trivial, by trivial⟩
        · simp only [handler, hl, if_false, step2, hEq]
          exact ⟨by trivial, by trivial⟩
  · intro gs c e hnl heps hle hpost
    have htry := tryEndpoints_absent c.endpointResults 0 heps
    rcases hEq : tryEndpoints c.endpointResults 0 with ⟨fst, snd⟩
    rw [hEq] at htry
    dsimp at htry
    subst htry
    simp only [handler, hnl, Bool.false_eq_true, if_false, step2, hEq,
      step3, hle, hpost]
    cases c.exc <;> exact ⟨by trivial, by trivial⟩

/-- Witness for the amended C2: the three propagation/catch cases at
concrete inputs. -/
theorem C2_exception_propagation_witness :
    (handler (some ⟨1, 0, none⟩)
        (⟨.raised (.backendFailure 3), .absent, [], none⟩ : CallSpec Nat) =
      ⟨.raisedBackend (.backendFailure 3), some ⟨1, 0, none⟩,
        [.queryGraph], []⟩) ∧
    ((handler none
        (⟨.absent, .absent, [.raised (.backendFailure 7), .value 5], none⟩ :
          CallSpec Nat)).outcome = .raisedBackend (.backendFailure 7) ∧
      (handler none
        (⟨.absent, .absent, [.raised (.backendFailure 7), .value 5], none⟩ :
          CallSpec Nat)).logged = []) ∧
    ((handler (some ⟨0, 2, none⟩)
        (⟨.absent, .raised (.backendFailure 9), [], none⟩ :
          CallSpec Nat)).logged = [.backendFailure 9] ∧
      (handler (some ⟨0, 2, none⟩)
        (⟨.absent, .raised (.backendFailure 9), [], none⟩ :
          CallSpec Nat)).outcome = .noneReturn) := by
  refine ⟨?_, ?_, ?_⟩
  · exact (C2_exception_propagation Nat).1 ⟨1, 0, none⟩ _ _ rfl rfl
  · exact (C2_exception_propagation Nat).2.1 none _ [] [.value 5] _
      (Or.inl rfl) rfl (by decide)
  · exact (C2_exception_propagation Nat).2.2 ⟨0, 2, none⟩ _ _ rfl
      (by decide) rfl rfl

/-- Claim C4: when every configured backend returns absent for a
uri-for-term lookup, the dispatch raises the typed `LookupError`
carrying the original query input (the message is built from the
unsanitized term), rather than returning a normal value or crashing
with a different exception. -/
theorem C4_lookup_failure (g : Option GraphSt)
    (eps : List (BackendResult String)) (term : String)
    (heps : ∀ r ∈ eps, r = .absent)
    (hload : ∀ gs, g = some gs → gs.loadExc = none) :
    (Ontology.uri_for_term_dispatch g .absent .absent eps term).outcome =
      .raisedLookup (.lookupErr (term ++ " is not a valid ontology term")) := by
  have h := handler_all_absent g
    { graphQueryPre := .absent, graphQueryPost := .absent,
      endpointResults := eps,
      exc := some (.lookupErr (term ++ " is not a valid ontology term")) }
    rfl rfl heps hload
  exact h

/-- Witness for C4: looking up "not_a_term" with all backends absent
raises the lookup failure naming the term. -/
theorem C4_lookup_failure_witness :
    (Ontology.uri_for_term_dispatch none .absent .absent
        [.absent, .absent] "not_a_term").outcome =
      .raisedLookup (.lookupErr "not_a_term is not a valid ontology term") := by
  have h := C4_lookup_failure none [.absent, .absent] "not_a_term"
    (by decide) (by intro gs hgs; cases hgs)
  exact h

/-- Claim C7: once a Graph backend is loaded it never reloads: starting
from a loaded graph, any sequence of dispatched operations leaves the
graph state untouched (so `is_loaded` remains true) and never emits a
`load()` event. -/
theorem C7_graph_load_one_way (α : Type) (gs : GraphSt)
    (cs : List (CallSpec α)) (h : gs.is_loaded = true) :
    (dispatchSeq (some gs) cs).1 = some gs ∧ gs.is_loaded = true ∧
      Ev.loadGraph ∉ (dispatchSeq (some gs) cs).2 := by
  induction cs with
  | nil => exact ⟨rfl, h, by simp [dispatchSeq]⟩
  | cons c rest ih =>
    have h1 := handler_loaded_fixed gs c h
    simp only [dispatchSeq]
    rw [h1.1]
    refine ⟨ih.1, h, ?_⟩
    intro hmem
    rcases List.mem_append.1 hmem with hm | hm
    · exact h1.2 hm
    · exact ih.2.2 hm

/-- Witness for C7: a loaded graph stays loaded and unreloaded across a
concrete sequence of dispatches. -/
theorem C7_graph_load_one_way_witness :
    (dispatchSeq (some ⟨3, 0, none⟩)
        ([⟨.absent, .absent, [.value 1], none⟩,
          ⟨.value 2, .absent, [], none⟩] : List (CallSpec Nat))).1 =
      some ⟨3, 0, none⟩ ∧ GraphSt.is_loaded ⟨3, 0, none⟩ = true ∧
      Ev.loadGraph ∉ (dispatchSeq (some ⟨3, 0, none⟩)
        ([⟨.absent, .absent, [.value 1], none⟩,
          ⟨.value 2, .absent, [], none⟩] : List (CallSpec Nat))).2 :=
  C7_graph_load_one_way Nat ⟨3, 0, none⟩ _ rfl

/-- Claim C10: every URI relationship query dispatches with no failure
exception, so when every backend returns absent these methods return
Python `None` (the `noneReturn` outcome) instead of raising a lookup
failure; in particular the outcome is never a boolean result, so a
caller treating it as a boolean receives a falsy non-boolean. -/
theorem C10_relationship_absent (g : Option GraphSt) (cb : CallSpec Bool)
    (cl : CallSpec (List String))
    (hb1 : cb.graphQueryPre = .absent) (hb2 : cb.graphQueryPost = .absent)
    (hb3 : ∀ r ∈ cb.endpointResults, r = .absent)
    (hl1 : cl.graphQueryPre = .absent) (hl2 : cl.graphQueryPost = .absent)
    (hl3 : ∀ r ∈ cl.endpointResults, r = .absent)
    (hg : ∀ gs, g = some gs → gs.loadExc = none) :
    (URI.is_child_of g cb).outcome = .noneReturn ∧
    (URI.is_parent_of g cb).outcome = .noneReturn ∧
    (URI.is_ancestor_of g cb).outcome = .noneReturn ∧
    (URI.is_descendant_of g cb).outcome = .noneReturn ∧
    (URI.is_instance g cb).outcome = .noneReturn ∧
    (URI.get_instances g cl).outcome = .noneReturn ∧
    (URI.get_parents g cl).outcome = .noneReturn ∧
    (URI.get_children g cl).outcome = .noneReturn ∧
    (URI.get_ancestors g cl).outcome = .noneReturn ∧
    (URI.get_descendants g cl).outcome = .noneReturn ∧
    (∀ b : Bool, (URI.is_child_of g cb).outcome ≠ .result b) := by
  have hbool : (relationDispatch g cb).outcome = .noneReturn :=
    handler_all_absent g { cb with exc := none } hb1 hb2 hb3 hg
  have hlist : (relationDispatch g cl).outcome = .noneReturn :=
    handler_all_absent g { cl with exc := none } hl1 hl2 hl3 hg
  refine ⟨hbool, hbool, hbool, hbool, hbool, hlist, hlist, hlist, hlist,
    hlist, ?_⟩
  intro b hcontra
  rw [show (URI.is_child_of g cb).outcome = Outcome.noneReturn from hbool]
    at hcontra
  exact Outcome.noConfusion hcontra

/-- Witness for C10: with no backends configured beyond an exhausted
endpoint list, each relationship query returns the absent outcome. -/
theorem C10_relationship_absent_witness :
    (URI.is_child_of none
        (⟨.absent, .absent, [.absent], none⟩ : CallSpec Bool)).outcome =
      .noneReturn ∧
    (URI.get_descendants none
        (⟨.absent, .absent, [.absent], none⟩ :
          CallSpec (List String))).outcome = .noneReturn := by
  have h := C10_relationship_absent none
    (⟨.absent, .absent, [.absent], none⟩ : CallSpec Bool)
    (⟨.absent, .absent, [.absent], none⟩ : CallSpec (List String))
    rfl rfl (by decide) rfl rfl (by decide)
    (by intro gs hgs; cases hgs)
  exact ⟨h.1, h.2.2.2.2.2.2.2.2.2.1⟩

/-- Claim C5 counterexample: constructing with neither path nor
endpoints raises the plain generic `Exception` type, while a malformed
endpoints argument raises `TypeError` — two distinct exception types,
the first being exactly the generic runtime error, so there is no
single typed configuration error distinct from a generic runtime
error. -/
theorem C5_config_error_counterexample :
    Ontology.init .nonePath .noneEps =
      .error (.genericException,
        "A sparql endpoint or a local path to an ontology must be specified") ∧
    Ontology.init .nonePath .nonList =
      .error (.typeError,
        "The endpoints argument requires a list of Endpoints") ∧
    InitErrorKind.genericException ≠ InitErrorKind.typeError := by
  refine ⟨rfl, rfl, by decide⟩

/-- Claim C5, amended: constructing an Ontology with neither a local
path nor an endpoints list raises, immediately at construction, a plain
generic `Exception` (not a distinct typed configuration error);
supplying a malformed endpoints argument (a non-list, or a list with a
non-backend element) raises a `TypeError`; the two exception types are
distinct; and a well-formed construction succeeds. -/
theorem C5_init_validation (path : PathArg) (l : List EndpointElem) :
    (∀ eps : EndpointsArg, path.truthy = false → eps.truthy = false →
      Ontology.init path eps =
        .error (.genericException,
          "A sparql endpoint or a local path to an ontology must be specified")) ∧
    (Ontology.init path .nonList =
      .error (.typeError,
        "The endpoints argument requires a list of Endpoints")) ∧
    (l ≠ [] → l.all (fun e => e = .backendE) = false →
      Ontology.init path (.listEps l) =
        .error (.typeError,
          "The endpoints argument requires a list of Endpoints")) ∧
    (∀ s : String, s ≠ "" → l ≠ [] → l.all (fun e => e = .backendE) = true →
      Ontology.init (.strPath s) (.listEps l) =
        .ok { graphPath := some s, endpoints := some l }) := by
  refine ⟨?_, ?_, ?_, ?_⟩
  · intro eps h1 h2
    simp [Ontology.init, h1, h2]
  · simp [Ontology.init, EndpointsArg.truthy]
  · intro hne hall
    simp [Ontology.init, EndpointsArg.truthy, hne, hall]
  · intro s hs hne hall
    simp [Ontology.init, PathArg.truthy, EndpointsArg.truthy, hs, hne, hall]

/-- Witness for the amended C5: the error and success cases at concrete
arguments. -/
theorem C5_init_validation_witness :
    Ontology.init .nonePath .noneEps =
      .error (.genericException,
        "A sparql endpoint or a local path to an ontology must be specified") ∧
    Ontology.init (.strPath "ontologies/so.owl") (.listEps [.nonBackendE]) =
      .error (.typeError,
        "The endpoints argument requires a list of Endpoints") ∧
    Ontology.init (.strPath "ontologies/so.owl") (.listEps [.backendE]) =
      .ok { graphPath := some "ontologies/so.owl",
            endpoints := some [.backendE] } := by
  refine ⟨(C5_init_validation .nonePath [.backendE]).1 .noneEps rfl rfl,
    (C5_init_validation (.strPath "ontologies/so.owl")
        [.nonBackendE]).2.2.1 (by decide) (by decide),
    (C5_init_validation (.strPath "ontologies/so.owl")
        [.backendE]).2.2.2 "ontologies/so.owl" (by decide) (by decide)
        (by decide)⟩

theorem cacheFold_shape (sizes : List Nat) :
    ∀ m : Nat,
      sizes.foldl configure_cache_size
        ⟨.wrapped m [] .original, .wrapped m [] .original⟩ =
      ⟨.wrapped (lastD sizes m) [] .original,
        .wrapped (lastD sizes m) [] .original⟩ := by
  induction sizes with
  | nil => intro m; rfl
  | cons s rest ih =>
    intro m
    simp only [List.foldl_cons, lastD]
    rw [show configure_cache_size
        ⟨.wrapped m [] .original, .wrapped m [] .original⟩ s =
      ⟨.wrapped s [] .original, .wrapped s [] .original⟩ from rfl]
    exact ih s

/-- Claim C8: after any sequence of `configure_cache_size` calls
following module import, each of the two hot lookup methods is exactly
one `lru_cache` wrapper around the original un-memoized function (never
double-wrapped), with an empty (freshly discarded) entry set and
capacity the most recent configured size; the default capacity is
1000. -/
theorem C8_cache_single_wrap (sizes : List Nat) :
    sizes.foldl configure_cache_size cacheInitState =
      ⟨.wrapped (lastD sizes defaultCacheSize) [] .original,
        .wrapped (lastD sizes defaultCacheSize) [] .original⟩ ∧
    defaultCacheSize = 1000 := by
  constructor
  · rw [show cacheInitState =
        ⟨.wrapped defaultCacheSize [] .original,
          .wrapped defaultCacheSize [] .original⟩ from rfl]
    exact cacheFold_shape sizes defaultCacheSize
  · rfl

/-- Claim C9 counterexample: the URI-by-term REST operations do not map
HTTP 404 to absent — both the ontology lookup service and the substance
lookup service raise `HTTPError` on 404 for term search. -/
theorem C9_rest_404_counterexample :
    EBI.get_uri_by_term ⟨404, []⟩ = .raised (.httpError 404) ∧
    EBI.get_uri_by_term ⟨404, ["http://x"]⟩ ≠ .absent ∧
    PUG_REST.get_uri_by_term ⟨404, none⟩ = .raised (.httpError 404) := by
  refine ⟨rfl, by decide, rfl⟩

/-- Claim C9, amended: for the term-by-URI operations of both REST
services, status 200 yields the parsed result, status 404 maps to
absent, and any other status raises a hard `HTTPError`; for the
URI-by-term operations, only status 200 yields a result (absent when
the payload is empty, and the substance service raises an ambiguity
failure for multiple ids) and every other status — including 404 —
raises a hard `HTTPError`. -/
theorem C9_rest_status_mapping :
    (∀ p : String, EBI.get_term_by_uri ⟨200, p⟩ = .ok p) ∧
    (∀ p : String, EBI.get_term_by_uri ⟨404, p⟩ = .absent) ∧
    (∀ (s : Nat) (p : String), s ≠ 200 → s ≠ 404 →
      EBI.get_term_by_uri ⟨s, p⟩ = .raised (.httpError s)) ∧
    (∀ p : String, PUG_REST.get_term_by_uri ⟨200, p⟩ = .ok p) ∧
    (∀ p : String, PUG_REST.get_term_by_uri ⟨404, p⟩ = .absent) ∧
    (∀ (s : Nat) (p : String), s ≠ 200 → s ≠ 404 →
      PUG_REST.get_term_by_uri ⟨s, p⟩ = .raised (.httpError s)) ∧
    (EBI.get_uri_by_term ⟨200, []⟩ = .absent) ∧
    (∀ (u : String) (rest : List String),
      EBI.get_uri_by_term ⟨200, u :: rest⟩ = .ok u) ∧
    (∀ (s : Nat) (p : List String), s ≠ 200 →
      EBI.get_uri_by_term ⟨s, p⟩ = .raised (.httpError s)) ∧
    (PUG_REST.get_uri_by_term ⟨200, none⟩ = .absent) ∧
    (∀ sid : Nat, PUG_REST.get_uri_by_term ⟨200, some [sid]⟩ =
      .ok ("https://identifiers.org/pubchem.substance:" ++ toString sid)) ∧
    (∀ sids : List Nat, sids.length > 1 →
      PUG_REST.get_uri_by_term ⟨200, some sids⟩ =
        .raised .ambiguousSubstance) ∧
    (∀ (s : Nat) (p : Option (List Nat)), s ≠ 200 →
      PUG_REST.get_uri_by_term ⟨s, p⟩ = .raised (.httpError s)) := by
  refine ⟨fun p => rfl, fun p => rfl, ?_, fun p => rfl, fun p => rfl, ?_,
    rfl, fun u rest => rfl, ?_, rfl, fun sid => rfl, ?_, ?_⟩
  · intro s p h1 h2
    simp only [EBI.get_term_by_uri]
    rw [if_neg h1, if_neg h2]
  · intro s p h1 h2
    simp only [PUG_REST.get_term_by_uri]
    rw [if_neg h1, if_neg h2]
  · intro s p h1
    simp only [EBI.get_uri_by_term]
    rw [if_neg h1]
  · intro sids hlen
    simp only [PUG_REST.get_uri_by_term, if_pos rfl]
    rw [if_pos hlen]
    simp
  · intro s p h1
    simp only [PUG_REST.get_uri_by_term]
    rw [if_neg h1]

/-- Witness for the amended C9: the raise and absent cases at concrete
statuses and payloads. -/
theorem C9_rest_status_mapping_witness :
    EBI.get_term_by_uri ⟨500, "x"⟩ = .raised (.httpError 500) ∧
    EBI.get_uri_by_term ⟨404, []⟩ = .raised (.httpError 404) ∧
    PUG_REST.get_uri_by_term ⟨200, some [1, 2]⟩ =
      .raised .ambiguousSubstance := by
  refine ⟨C9_rest_status_mapping.2.2.1 500 "x" (by decide) (by decide),
    C9_rest_status_mapping.2.2.2.2.2.2.2.2.1 404 [] (by decide),
    C9_rest_status_mapping.2.2.2.2.2.2.2.2.2.2.2.1 [1, 2] (by decide)⟩

/-- Claim C3 counterexample: underscore, hyphen and space are NOT
mutually equivalent in the term match — only a space in the query term
matches underscore/hyphen/whitespace in the label.  A term with an
underscore fails to match a label with a space (and the lookup returns
absent), although the two strings are equal under the spec's
equivalence, and although the reverse direction (space in the term,
underscore in the label) does match. -/
theorem C3_equiv_matching_counterexample :
    SPARQLBuilder.get_uri_by_term [("u1", "a b")] "a_b" = .absent ∧
    specEquivMatch "a_b" "a b" = true ∧
    regexMatch true "a_b" "a b" = false ∧
    regexMatch true "a b" "a_b" = true := by
  refine ⟨?_, ?_, ?_, ?_⟩ <;> decide

/-- Claim C3, amended: in the shared SPARQL-style term lookup, the term
is first matched case-insensitively, with each space in the query term
matching an underscore, hyphen, or whitespace character in the label
(underscores and hyphens in the query term match only themselves); if
that match yields no result, absent is returned; if it yields more than
one URI, a case-sensitive re-query is performed, whose empty result
returns absent, whose unique result is returned, and whose
still-ambiguous result raises the ambiguity error naming all candidate
URIs; the case-sensitive matches are always among the case-insensitive
ones. -/
theorem C3_term_lookup_cascade (store : Store) (term : String) :
    (queryUrisByTerm store true term = [] →
      SPARQLBuilder.get_uri_by_term store term = .absent) ∧
    (∀ u, queryUrisByTerm store true term = [u] →
      SPARQLBuilder.get_uri_by_term store term = .found u) ∧
    ((queryUrisByTerm store true term).length > 1 →
      (queryUrisByTerm store false term = [] →
        SPARQLBuilder.get_uri_by_term store term = .absent) ∧
      (∀ u, queryUrisByTerm store false term = [u] →
        SPARQLBuilder.get_uri_by_term store term = .found u) ∧
      ((queryUrisByTerm store false term).length > 1 →
        SPARQLBuilder.get_uri_by_term store term =
          .error (.ambiguous term (queryUrisByTerm store false term)))) ∧
    (∀ u ∈ queryUrisByTerm store false term,
      u ∈ queryUrisByTerm store true term) := by
  refine ⟨?_, ?_, ?_, ?_⟩
  · intro h
    simp [SPARQLBuilder.get_uri_by_term, h]
  · intro u h
    simp [SPARQLBuilder.get_uri_by_term, h]
  · intro hlen
    have h0 : ¬ (queryUrisByTerm store true term).length = 0 := by omega
    refine ⟨?_, ?_, ?_⟩
    · intro hcs
      simp [SPARQLBuilder.get_uri_by_term, h0, hlen, hcs]
    · intro u hcs
      simp [SPARQLBuilder.get_uri_by_term, h0, hlen, hcs]
    · intro hcslen
      have hcs0 : ¬ (queryUrisByTerm store false term).length = 0 := by omega
      simp [SPARQLBuilder.get_uri_by_term, h0, hlen, hcs0, hcslen]
  · intro u hu
    rw [mem_queryUrisByTerm] at hu ⊢
    obtain ⟨p, hp, hpu, hm⟩ := hu
    exact ⟨p, hp, hpu, regexMatch_mono _ _ hm⟩

/-- Witness for the amended C3: the case-sensitive re-query resolving
an ambiguity, the still-ambiguous error, and the absent case, at
concrete stores. -/
theorem C3_term_lookup_cascade_witness :
    SPARQLBuilder.get_uri_by_term
        [("u1", "Promoter"), ("u2", "promoter")] "promoter" = .found "u2" ∧
    SPARQLBuilder.get_uri_by_term
        [("u1", "gene"), ("u2", "gene")] "gene" =
      .error (.ambiguous "gene" ["u1", "u2"]) ∧
    SPARQLBuilder.get_uri_by_term [("u1", "tRNA")] "promoter" = .absent := by
  have h1 := ((C3_term_lookup_cascade
      [("u1", "Promoter"), ("u2", "promoter")] "promoter").2.2.1
      (by decide)).2.1 "u2" (by decide)
  have h2 := ((C3_term_lookup_cascade
      [("u1", "gene"), ("u2", "gene")] "gene").2.2.1 (by decide)).2.2
      (by decide)
  rw [show queryUrisByTerm [("u1", "gene"), ("u2", "gene")] false "gene" =
      ["u1", "u2"] from by decide] at h2
  have h3 := (C3_term_lookup_cascade [("u1", "tRNA")] "promoter").1
    (by decide)
  exact ⟨h1, h2, h3⟩

theorem get_uri_by_term_found_ne_nil (store : Store) (term u : String)
    (h : SPARQLBuilder.get_uri_by_term store term = .found u) :
    store ≠ [] := by
  intro hc
  subst hc
  simp [SPARQLBuilder.get_uri_by_term, queryUrisByTerm, dedupFirst] at h

theorem get_uri_by_term_found_mem (store : Store) (term u : String)
    (h : SPARQLBuilder.get_uri_by_term store term = .found u) :
    u ∈ queryUrisByTerm store true term ∨
      u ∈ queryUrisByTerm store false term := by
  by_cases h0 : (queryUrisByTerm store true term).length = 0
  · simp [SPARQLBuilder.get_uri_by_term, h0] at h
  · by_cases h1 : (queryUrisByTerm store true term).length > 1
    · by_cases h2 : (queryUrisByTerm store false term).length = 0
      · simp [SPARQLBuilder.get_uri_by_term, h0, h1, h2] at h
      · by_cases h3 : (queryUrisByTerm store false term).length > 1
        · simp [SPARQLBuilder.get_uri_by_term, h0, h1, h2, h3] at h
        · right
          rcases hcs : queryUrisByTerm store false term with _ | ⟨u2, rest⟩
          · rw [hcs] at h2
            simp at h2
          · have hrl : rest.length = 0 := by
              rw [hcs] at h3
              simp only [List.length_cons] at h3
              omega
            obtain rfl := List.length_eq_zero.1 hrl
            simp [SPARQLBuilder.get_uri_by_term, h0, h1, h2, h3, hcs] at h
            simp [h]
    · left
      rcases hci : queryUrisByTerm store true term with _ | ⟨u2, rest⟩
      · rw [hci] at h0
        simp at h0
      · have hrl : rest.length = 0 := by
          rw [hci] at h1
          simp only [List.length_cons] at h1
          omega
        obtain rfl := List.length_eq_zero.1 hrl
        simp [SPARQLBuilder.get_uri_by_term, h0, h1, hci] at h
        simp [h]

theorem label_unique (store : Store) (u l : String)
    (hl : queryLabelsByUri store u = [l]) :
    ∀ p ∈ store, p.1 = u → p.2 = l := by
  intro p hp hpu
  have hmem : p.2 ∈ queryLabelsByUri store u := by
    unfold queryLabelsByUri
    exact List.mem_map.2 ⟨p, List.mem_filter.2 ⟨hp, by simp [hpu]⟩, rfl⟩
  rw [hl] at hmem
  simpa using hmem

theorem localGraphState_loaded (store : Store) (hne : store ≠ []) :
    (localGraphState store).is_loaded = true := by
  have hlen : store.length ≠ 0 := fun hc => hne (List.length_eq_zero.1 hc)
  simp [localGraphState, GraphSt.is_loaded, hlen]

theorem get_uri_by_term_local_found (cfg : OntologyCfg) (store : Store)
    (term u0 : String) (hne : store ≠ [])
    (h : SPARQLBuilder.get_uri_by_term store (cfg.sanTerm term) = .found u0) :
    Ontology.get_uri_by_term_local cfg store term =
      .result (cfg.revSanUri u0) := by
  have hload := localGraphState_loaded store hne
  simp [Ontology.get_uri_by_term_local, h, TermLookup.toBackend, handler,
    hload]

theorem get_term_by_uri_local_found (cfg : OntologyCfg) (store : Store)
    (uri l : String) (hne : store ≠ [])
    (h : SPARQLBuilder.get_term_by_uri store (cfg.sanUri uri) = some l) :
    Ontology.get_term_by_uri_local cfg store uri =
      .result (cfg.revSanTerm l) := by
  have hload := localGraphState_loaded store hne
  simp [Ontology.get_term_by_uri_local, h, handler, hload]

/-- Claim C6: round-trip.  Generally: whenever the shared lookup
resolves a (sanitized) term T to a URI whose reverse/forward URI
sanitization is faithful and which carries exactly one label in the
store, `get_uri_by_term` returns the reverse-sanitized URI,
`get_term_by_uri` on that returned URI yields that label
(reverse-sanitized), and the label equals T modulo the case/underscore
normalization of the match.  Concretely, for the sequence ontology
(store modelled from the spec, sanitizers from src/tyto/so.py):
`get_uri_by_term "sequence_feature"` returns
`https://identifiers.org/SO:0000110` and `get_term_by_uri` on that URI
returns `sequence_feature`. -/
theorem C6_roundtrip :
    (∀ (cfg : OntologyCfg) (store : Store) (term u0 l : String),
        SPARQLBuilder.get_uri_by_term store (cfg.sanTerm term) = .found u0 →
        cfg.sanUri (cfg.revSanUri u0) = u0 →
        queryLabelsByUri store u0 = [l] →
        Ontology.get_uri_by_term_local cfg store term =
          .result (cfg.revSanUri u0) ∧
        Ontology.get_term_by_uri_local cfg store (cfg.revSanUri u0) =
          .result (cfg.revSanTerm l) ∧
        regexMatch true (cfg.sanTerm term) l = true) ∧
    (Ontology.get_uri_by_term_local SO.cfg SO.storeSample
        "sequence_feature" = .result "https://identifiers.org/SO:0000110" ∧
      Ontology.get_term_by_uri_local SO.cfg SO.storeSample
        "https://identifiers.org/SO:0000110" = .result "sequence_feature") := by
  constructor
  · intro cfg store term u0 l hfound hsan hlab
    have hne := get_uri_by_term_found_ne_nil store (cfg.sanTerm term) u0
      hfound
    refine ⟨get_uri_by_term_local_found cfg store term u0 hne hfound,
      ?_, ?_⟩
    · apply get_term_by_uri_local_found cfg store _ l hne
      rw [hsan]
      unfold SPARQLBuilder.get_term_by_uri
      rw [hlab]
    · rcases get_uri_by_term_found_mem store (cfg.sanTerm term) u0 hfound
        with hm | hm
      · rw [mem_queryUrisByTerm] at hm
        obtain ⟨p, hp, hpu, hmt⟩ := hm
        have hpl := label_unique store u0 l hlab p hp hpu
        rwa [← hpl]
      · rw [mem_queryUrisByTerm] at hm
        obtain ⟨p, hp, hpu, hmt⟩ := hm
        have hpl := label_unique store u0 l hlab p hp hpu
        rw [← hpl]
        exact regexMatch_mono _ _ hmt
  · exact ⟨by decide, by decide⟩

/-- Witness for C6: the general round-trip instantiated at the modelled
sequence-ontology store. -/
theorem C6_roundtrip_witness :
    Ontology.get_uri_by_term_local SO.cfg SO.storeSample
        "sequence_feature" =
      .result (SO.cfg.revSanUri "http://purl.obolibrary.org/obo/SO_0000110") ∧
    Ontology.get_term_by_uri_local SO.cfg SO.storeSample
        (SO.cfg.revSanUri "http://purl.obolibrary.org/obo/SO_0000110") =
      .result (SO.cfg.revSanTerm "sequence_feature") ∧
    regexMatch true (SO.cfg.sanTerm "sequence_feature")
      "sequence_feature" = true :=
  C6_roundtrip.1 SO.cfg SO.storeSample "sequence_feature"
    "http://purl.obolibrary.org/obo/SO_0000110" "sequence_feature"
    (by decide) (by decide) (by decide)

end Tyto
